import Mathlib

/-!
Shallow embedding of `mv_audience_bid_neg_modifier.js` (In-market Audiences Bidding).

Modelling conventions:
* JavaScript numbers are embedded as `ℚ`.  A possibly-missing number (an absent
  object key, or the NaN produced by `parseFloat(undefined)` and by arithmetic
  on NaN) is `Option ℚ`, with `none` standing for the missing/NaN value.
* A JS object used as a dictionary is an association list in insertion order;
  property assignment `m[k] = v` is `objInsert` (overwrite in place, else append),
  `Object.keys` is `keysOf`.
* The reporting platform's selectors are embedded as lists: `withCondition`
  restricts the selection, and chained conditions are conjoined (the platform's
  documented contract), so each chained condition becomes a `List.filter`.
* All stats are understood over the one configured date range (`DATE_RANGE` is a
  global constant used for every `forDateRange` call), so an entity simply
  carries its stats for that window.
* The `while (it.hasNext())` loops that concatenate onto a mutable accumulator
  are embedded as `flatMap` over the corresponding list, which produces the same
  list in the same order.
-/

/-- `DATE_RANGE = 'LAST_7_DAYS'`: the single date window every query, stats call
and selector in the script uses. -/
def DATE_RANGE : String := "LAST_7_DAYS"

/-- `MINIMUM_IMPRESSIONS = 50`. -/
def MINIMUM_IMPRESSIONS : Nat := 50

/-- JS `Array.prototype.indexOf` on strings, accumulator form: returns the index
of the first occurrence, or `-1` when absent. -/
def jsIndexOfAux (s : String) : List String → Int → Int
  | [], _ => -1
  | h :: t, i => if h = s then i else jsIndexOfAux s t (i + 1)

/-- JS `l.indexOf(s)`. -/
def jsIndexOf (l : List String) (s : String) : Int :=
  jsIndexOfAux s l 0

/-- Aggregated stats of an entity or audience over the configured date range. -/
structure Stats where
  impressions : Nat
  cost : ℚ
  conversions : ℚ
  deriving DecidableEq, Repr

/-- An audience criterion attached to a targeting entity, with its stats for the
configured date range (`getStatsFor(DATE_RANGE)`). -/
structure Audience where
  audienceId : String
  stats : Stats
  deriving DecidableEq, Repr

/-- An ad group: id, its own stats, and its ad-group-level audiences. -/
structure AdGroup where
  id : String
  stats : Stats
  audiences : List Audience
  deriving DecidableEq, Repr

/-- A campaign: id, name, its own stats, its campaign-level audiences
(`campaign.targeting().audiences()`), and its ad groups. -/
structure Campaign where
  id : String
  name : String
  stats : Stats
  audiences : List Audience
  adGroups : List AdGroup
  deriving DecidableEq, Repr

/-- The output unit: `{audience, modifier}`.  `modifier = none` models the NaN
that JS produces when the baseline CPA is missing. -/
structure BidOperation where
  audience : Audience
  modifier : Option ℚ
  deriving DecidableEq, Repr

/-- The id → category dictionary built by the mapping loader, as a JS object
(association list in insertion order). -/
abbrev AudienceMapping := List (String × String)

/-- `Object.keys(m)`, in insertion order. -/
def keysOf (m : AudienceMapping) : List String :=
  m.map Prod.fst

/-- JS object property assignment `m[k] = v`: if the key exists its value is
overwritten in place, otherwise the pair is appended. -/
def objInsert (m : AudienceMapping) (k v : String) : AudienceMapping :=
  if k ∈ keysOf m then m.map (fun p => if p.1 = k then (k, v) else p)
  else m ++ [(k, v)]

/-- JS object property read `m[q]` on the dictionary. -/
def lookupKey : AudienceMapping → String → Option String
  | [], _ => none
  | (k, v) :: t, q => if k = q then some v else lookupKey t q

/-- `row[i]` for a JS array index produced by `indexOf`; the claims only
exercise in-range reads, an out-of-range read is defaulted to `""`. -/
def rowGet (row : List String) (i : Int) : String :=
  row.getD i.toNat ""

/-- `getInMarketAudienceMapping`, given the parsed CSV (list of rows, first row
the headers): locate the `Criterion ID` and `Category` columns, throw if either
is missing, otherwise fold the data rows into the dictionary. -/
def getInMarketAudienceMapping (csv : List (List String)) : Except String AudienceMapping :=
  let headers := csv.headD []
  let indexOfId := jsIndexOf headers "Criterion ID"
  let indexOfName := jsIndexOf headers "Category"
  if indexOfId = -1 ∨ indexOfName = -1 then
    Except.error "The audience CSV does not have the expected headers"
  else
    Except.ok ((csv.drop 1).foldl
      (fun mapping row => objInsert mapping (rowGet row indexOfId) (rowGet row indexOfName))
      [])

/-- Characters of a string lower-cased, for the platform's case-insensitive
string conditions. -/
def lowerChars (s : String) : List Char :=
  s.toList.map Char.toLower

/-- Does the first list start with the second? -/
def startsWithChars : List Char → List Char → Bool
  | _, [] => true
  | [], _ :: _ => false
  | h :: t, n :: m => h = n && startsWithChars t m

/-- Does the first list contain the second as a contiguous run? -/
def containsChars : List Char → List Char → Bool
  | [], needle => startsWithChars [] needle
  | h :: t, needle => startsWithChars (h :: t) needle || containsChars t needle

/-- The platform condition `CampaignName CONTAINS_IGNORE_CASE part`. -/
def containsIgnoreCase (name part : String) : Bool :=
  containsChars (lowerChars name) (lowerChars part)

/-- `filterCampaignsBasedOnName`: one chained `withCondition` per entry of
`CAMPAIGN_NAME_DOES_NOT_CONTAIN` and per entry of `CAMPAIGN_NAME_CONTAINS`;
chained selector conditions are conjoined by the platform, so each `forEach`
step restricts the current selection. -/
def filterCampaignsBasedOnName (doesNotContain nameContains : List String)
    (campaigns : List Campaign) : List Campaign :=
  let afterExclusion := doesNotContain.foldl
    (fun cs part => cs.filter (fun c => !containsIgnoreCase c.name part)) campaigns
  nameContains.foldl
    (fun cs part => cs.filter (fun c => containsIgnoreCase c.name part)) afterExclusion

/-- `filterEntitiesBasedOnDateAndImpressions` applied to a campaign selector:
`forDateRange(DATE_RANGE).withCondition('Impressions > 50')`. -/
def filterCampaignsBasedOnDateAndImpressions (l : List Campaign) : List Campaign :=
  l.filter (fun c => decide (MINIMUM_IMPRESSIONS < c.stats.impressions))

/-- `filterEntitiesBasedOnDateAndImpressions` applied to an ad-group selector. -/
def filterAdGroupsBasedOnDateAndImpressions (l : List AdGroup) : List AdGroup :=
  l.filter (fun g => decide (MINIMUM_IMPRESSIONS < g.stats.impressions))

/-- `isAudienceInMarketAudience`: membership test via `indexOf(...) > -1`. -/
def isAudienceInMarketAudience (audience : Audience) (inMarketIds : List String) : Bool :=
  decide (jsIndexOf inMarketIds audience.audienceId > -1)

/-- `getAudiencesFromEntity`: the entity's attached audiences, restricted by the
date+impressions condition, keeping only those whose id is among
`Object.keys(audienceMapping)`. -/
def getAudiencesFromEntity (entityAudiences : List Audience)
    (audienceMapping : AudienceMapping) : List Audience :=
  let inMarketIds := keysOf audienceMapping
  let allAudiences := entityAudiences.filter
    (fun a => decide (MINIMUM_IMPRESSIONS < a.stats.impressions))
  allAudiences.filter (fun a => isAudienceInMarketAudience a inMarketIds)

/-- JS division of a possibly-NaN numerator by a number: NaN propagates. -/
def jsDiv (x : Option ℚ) (d : ℚ) : Option ℚ :=
  x.map (fun n => n / d)

/-- `parseFloat(entityCpa)`: a present numeric report value parses to itself,
`parseFloat(undefined)` is NaN (`none`). -/
def parseFloatOpt (x : Option ℚ) : Option ℚ :=
  x

/-- `makeOperations`: for each audience with `conversions > 0`, emit an
operation with `modifier = parseFloat(entityCpa) / (cost / conversions)`;
audiences with zero conversions contribute nothing. -/
def makeOperations (entityCpa : Option ℚ) : List Audience → List BidOperation
  | [] => []
  | audience :: rest =>
    let stats := audience.stats
    if 0 < stats.conversions then
      let audienceCpa := stats.cost / stats.conversions
      let modifier := jsDiv (parseFloatOpt entityCpa) audienceCpa
      { audience := audience, modifier := modifier } :: makeOperations entityCpa rest
    else
      makeOperations entityCpa rest

/-- `makeOperationsFromEntity`, with the entity's attached audiences passed
explicitly (the script reads them via `entity.targeting().audiences()`). -/
def makeOperationsFromEntity (entityAudiences : List Audience) (entityCpa : Option ℚ)
    (audienceMapping : AudienceMapping) : List BidOperation :=
  makeOperations entityCpa (getAudiencesFromEntity entityAudiences audienceMapping)

/-- `campaignHasAnyCampaignLevelAudiences`: `totalNumEntities() > 0` over ALL of
the campaign's attached audiences — no date range, impression or mapping
restriction is applied here. -/
def campaignHasAnyCampaignLevelAudiences (campaign : Campaign) : Bool :=
  decide (0 < campaign.audiences.length)

/-- Which entity a loop iteration of `makeAllOperations` processes: the
campaign itself, or one of its ad groups. -/
inductive ProcessedEntity where
  | campaignLevel (campaign : Campaign)
  | adGroupLevel (campaign : Campaign) (adGroup : AdGroup)
  deriving DecidableEq, Repr

/-- The entities processed for one surviving campaign, mirroring the branch in
`makeAllOperations`: the campaign itself when it has any campaign-level
audiences, otherwise its (date+impressions filtered) ad groups. -/
def processCampaign (campaign : Campaign) : List ProcessedEntity :=
  if campaignHasAnyCampaignLevelAudiences campaign then
    [ProcessedEntity.campaignLevel campaign]
  else
    (filterAdGroupsBasedOnDateAndImpressions campaign.adGroups).map
      (fun adGroup => ProcessedEntity.adGroupLevel campaign adGroup)

/-- The operations contributed by one surviving campaign in `makeAllOperations`:
same branch as `processCampaign`, with the matching performance lookup
(`campaignPerformance[campaign.getId()]` resp. `adGroupPerformance[adGroup.getId()]`,
`none` when the key is absent). -/
def operationsForCampaign (audienceMapping : AudienceMapping)
    (campaignPerformance adGroupPerformance : String → Option ℚ)
    (campaign : Campaign) : List BidOperation :=
  if campaignHasAnyCampaignLevelAudiences campaign then
    makeOperationsFromEntity campaign.audiences (campaignPerformance campaign.id)
      audienceMapping
  else
    (filterAdGroupsBasedOnDateAndImpressions campaign.adGroups).flatMap
      (fun adGroup =>
        makeOperationsFromEntity adGroup.audiences (adGroupPerformance adGroup.id)
          audienceMapping)

/-- The campaigns that survive both the name filters and the date+impressions
filter, in `makeAllOperations`. -/
def selectedCampaigns (doesNotContain nameContains : List String)
    (accountCampaigns : List Campaign) : List Campaign :=
  filterCampaignsBasedOnDateAndImpressions
    (filterCampaignsBasedOnName doesNotContain nameContains accountCampaigns)

/-- `makeAllOperations`: iterate the surviving campaigns, concatenating each
one's operations (the while/concat loop, as a `flatMap`). -/
def makeAllOperations (audienceMapping : AudienceMapping)
    (campaignPerformance adGroupPerformance : String → Option ℚ)
    (doesNotContain nameContains : List String)
    (accountCampaigns : List Campaign) : List BidOperation :=
  (selectedCampaigns doesNotContain nameContains accountCampaigns).flatMap
    (operationsForCampaign audienceMapping campaignPerformance adGroupPerformance)

/-- The full trace of processed entities for a run, same iteration order as
`makeAllOperations`. -/
def processedEntities (doesNotContain nameContains : List String)
    (accountCampaigns : List Campaign) : List ProcessedEntity :=
  (selectedCampaigns doesNotContain nameContains accountCampaigns).flatMap processCampaign

/-! ## Lemmas about the embedded JS primitives -/

theorem jsIndexOfAux_pos_iff (s : String) (l : List String) :
    ∀ i : Int, 0 ≤ i → (jsIndexOfAux s l i > -1 ↔ s ∈ l) := by
  induction l with
  | nil =>
    intro i _
    simp [jsIndexOfAux]
  | cons h t ih =>
    intro i hi
    by_cases hh : h = s
    · rw [jsIndexOfAux, if_pos hh]
      constructor
      · intro _
        exact hh ▸ List.mem_cons_self h t
      · intro _
        omega
    · rw [jsIndexOfAux, if_neg hh, ih (i + 1) (by omega), List.mem_cons]
      constructor
      · exact Or.inr
      · rintro (rfl | hm)
        · exact absurd rfl hh
        · exact hm

theorem jsIndexOfAux_eq_neg_one_iff (s : String) (l : List String) :
    ∀ i : Int, 0 ≤ i → (jsIndexOfAux s l i = -1 ↔ s ∉ l) := by
  induction l with
  | nil =>
    intro i _
    simp [jsIndexOfAux]
  | cons h t ih =>
    intro i hi
    by_cases hh : h = s
    · rw [jsIndexOfAux, if_pos hh]
      constructor
      · intro he
        omega
      · intro hm
        exact absurd (hh ▸ List.mem_cons_self h t) hm
    · rw [jsIndexOfAux, if_neg hh, ih (i + 1) (by omega), List.mem_cons]
      constructor
      · rintro hn (rfl | hm)
        · exact hh rfl
        · exact hn hm
      · intro hn hm
        exact hn (Or.inr hm)

theorem jsIndexOf_pos_iff (l : List String) (s : String) :
    jsIndexOf l s > -1 ↔ s ∈ l :=
  jsIndexOfAux_pos_iff s l 0 le_rfl

theorem jsIndexOf_eq_neg_one_iff (l : List String) (s : String) :
    jsIndexOf l s = -1 ↔ s ∉ l :=
  jsIndexOfAux_eq_neg_one_iff s l 0 le_rfl

theorem isAudienceInMarketAudience_eq_true_iff (a : Audience) (ids : List String) :
    isAudienceInMarketAudience a ids = true ↔ a.audienceId ∈ ids := by
  rw [isAudienceInMarketAudience, decide_eq_true_iff]
  exact jsIndexOf_pos_iff ids a.audienceId

theorem campaignHasAudiences_eq_true_iff (c : Campaign) :
    campaignHasAnyCampaignLevelAudiences c = true ↔ c.audiences ≠ [] := by
  rw [campaignHasAnyCampaignLevelAudiences, decide_eq_true_iff]
  exact List.length_pos

/-! ## Membership characterizations of the pipeline stages -/

theorem mem_getAudiencesFromEntity {a : Audience} {auds : List Audience} {m : AudienceMapping} :
    a ∈ getAudiencesFromEntity auds m ↔
      a ∈ auds ∧ MINIMUM_IMPRESSIONS < a.stats.impressions ∧ a.audienceId ∈ keysOf m := by
  simp only [getAudiencesFromEntity, List.mem_filter, isAudienceInMarketAudience_eq_true_iff,
    decide_eq_true_eq, and_assoc]

theorem mem_makeOperations {op : BidOperation} {cpa : Option ℚ} :
    ∀ {l : List Audience},
      op ∈ makeOperations cpa l ↔
        ∃ a, a ∈ l ∧ 0 < a.stats.conversions ∧
          op = { audience := a,
                 modifier := jsDiv (parseFloatOpt cpa) (a.stats.cost / a.stats.conversions) } := by
  intro l
  induction l with
  | nil => simp [makeOperations]
  | cons a rest ih =>
    by_cases h : 0 < a.stats.conversions
    · have e : makeOperations cpa (a :: rest) =
          { audience := a,
            modifier := jsDiv (parseFloatOpt cpa) (a.stats.cost / a.stats.conversions) } ::
            makeOperations cpa rest := by
        simp [makeOperations, h]
      rw [e, List.mem_cons, ih]
      constructor
      · rintro (rfl | ⟨b, hb, hc, rfl⟩)
        · exact ⟨a, List.mem_cons_self a rest, h, rfl⟩
        · exact ⟨b, List.mem_cons_of_mem a hb, hc, rfl⟩
      · rintro ⟨b, hb, hc, rfl⟩
        rcases List.mem_cons.mp hb with rfl | hb'
        · exact Or.inl rfl
        · exact Or.inr ⟨b, hb', hc, rfl⟩
    · have e : makeOperations cpa (a :: rest) = makeOperations cpa rest := by
        simp [makeOperations, h]
      rw [e, ih]
      constructor
      · rintro ⟨b, hb, hc, rfl⟩
        exact ⟨b, List.mem_cons_of_mem a hb, hc, rfl⟩
      · rintro ⟨b, hb, hc, rfl⟩
        rcases List.mem_cons.mp hb with rfl | hb'
        · exact absurd hc h
        · exact ⟨b, hb', hc, rfl⟩

theorem mem_makeOperationsFromEntity {op : BidOperation} {auds : List Audience}
    {cpa : Option ℚ} {m : AudienceMapping} :
    op ∈ makeOperationsFromEntity auds cpa m ↔
      ∃ a, a ∈ getAudiencesFromEntity auds m ∧ 0 < a.stats.conversions ∧
        op = { audience := a,
               modifier := jsDiv (parseFloatOpt cpa) (a.stats.cost / a.stats.conversions) } :=
  mem_makeOperations

theorem conversions_pos_of_mem_operationsForCampaign {op : BidOperation}
    {m : AudienceMapping} {cp ap : String → Option ℚ} {c : Campaign}
    (h : op ∈ operationsForCampaign m cp ap c) :
    0 < op.audience.stats.conversions := by
  unfold operationsForCampaign at h
  split at h
  · rcases mem_makeOperationsFromEntity.mp h with ⟨a, _, hc, rfl⟩
    exact hc
  · rcases List.mem_flatMap.mp h with ⟨g, _, hg⟩
    rcases mem_makeOperationsFromEntity.mp hg with ⟨a, _, hc, rfl⟩
    exact hc

/-! ## Which entities a run processes -/

theorem campaignLevel_mem_processCampaign {c c' : Campaign} :
    ProcessedEntity.campaignLevel c ∈ processCampaign c' ↔ c' = c ∧ c.audiences ≠ [] := by
  unfold processCampaign
  by_cases h : campaignHasAnyCampaignLevelAudiences c' = true
  · rw [if_pos h]
    simp only [List.mem_singleton, ProcessedEntity.campaignLevel.injEq]
    constructor
    · rintro rfl
      exact ⟨rfl, (campaignHasAudiences_eq_true_iff _).mp h⟩
    · rintro ⟨rfl, _⟩
      rfl
  · rw [if_neg h]
    simp only [List.mem_map]
    constructor
    · rintro ⟨g, _, he⟩
      simp at he
    · rintro ⟨rfl, hne⟩
      exact absurd ((campaignHasAudiences_eq_true_iff _).mpr hne) h

theorem adGroupLevel_mem_processCampaign {c c' : Campaign} {g : AdGroup} :
    ProcessedEntity.adGroupLevel c g ∈ processCampaign c' ↔
      c' = c ∧ c.audiences = [] ∧ g ∈ filterAdGroupsBasedOnDateAndImpressions c.adGroups := by
  unfold processCampaign
  by_cases h : campaignHasAnyCampaignLevelAudiences c' = true
  · rw [if_pos h]
    simp only [List.mem_singleton]
    constructor
    · intro he
      simp at he
    · rintro ⟨rfl, hnil, _⟩
      rw [campaignHasAudiences_eq_true_iff] at h
      exact absurd hnil h
  · rw [if_neg h]
    simp only [List.mem_map, ProcessedEntity.adGroupLevel.injEq]
    constructor
    · rintro ⟨g', hg', rfl, rfl⟩
      rw [campaignHasAudiences_eq_true_iff] at h
      exact ⟨rfl, not_ne_iff.mp h, hg'⟩
    · rintro ⟨rfl, _, hg⟩
      exact ⟨g, hg, rfl, rfl⟩

theorem campaignLevel_mem_processedEntities {dnc con : List String} {camps : List Campaign}
    {c : Campaign} :
    ProcessedEntity.campaignLevel c ∈ processedEntities dnc con camps ↔
      c ∈ selectedCampaigns dnc con camps ∧ c.audiences ≠ [] := by
  rw [processedEntities, List.mem_flatMap]
  constructor
  · rintro ⟨c', hc', hm⟩
    rcases campaignLevel_mem_processCampaign.mp hm with ⟨rfl, hne⟩
    exact ⟨hc', hne⟩
  · rintro ⟨hc, hne⟩
    exact ⟨c, hc, campaignLevel_mem_processCampaign.mpr ⟨rfl, hne⟩⟩

theorem adGroupLevel_mem_processedEntities {dnc con : List String} {camps : List Campaign}
    {c : Campaign} {g : AdGroup} :
    ProcessedEntity.adGroupLevel c g ∈ processedEntities dnc con camps ↔
      c ∈ selectedCampaigns dnc con camps ∧ c.audiences = [] ∧
        g ∈ filterAdGroupsBasedOnDateAndImpressions c.adGroups := by
  rw [processedEntities, List.mem_flatMap]
  constructor
  · rintro ⟨c', hc', hm⟩
    rcases adGroupLevel_mem_processCampaign.mp hm with ⟨rfl, hnil, hg⟩
    exact ⟨hc', hnil, hg⟩
  · rintro ⟨hc, hnil, hg⟩
    exact ⟨c, hc, adGroupLevel_mem_processCampaign.mpr ⟨rfl, hnil, hg⟩⟩

/-! ## Lemmas about the JS object model used by the mapping loader -/

theorem lookupKey_append_of_not_mem {m : AudienceMapping} {k : String}
    (m' : AudienceMapping) (h : k ∉ keysOf m) :
    lookupKey (m ++ m') k = lookupKey m' k := by
  induction m with
  | nil => rfl
  | cons p t ih =>
    obtain ⟨a, b⟩ := p
    rw [keysOf, List.map_cons, List.mem_cons] at h
    push_neg at h
    rw [List.cons_append, lookupKey, if_neg (fun e => h.1 e.symm)]
    exact ih (by simpa [keysOf] using h.2)

theorem lookupKey_append_single_ne (m : AudienceMapping) (k v q : String) (h : q ≠ k) :
    lookupKey (m ++ [(k, v)]) q = lookupKey m q := by
  induction m with
  | nil =>
    simp [lookupKey, Ne.symm h]
  | cons p t ih =>
    obtain ⟨a, b⟩ := p
    rw [List.cons_append, lookupKey, lookupKey]
    by_cases haq : a = q
    · rw [if_pos haq, if_pos haq]
    · rw [if_neg haq, if_neg haq]
      exact ih

theorem lookupKey_map_overwrite_self {m : AudienceMapping} {k : String} (v : String)
    (h : k ∈ keysOf m) :
    lookupKey (m.map (fun p => if p.1 = k then (k, v) else p)) k = some v := by
  induction m with
  | nil => simp [keysOf] at h
  | cons p t ih =>
    obtain ⟨a, b⟩ := p
    by_cases ha : a = k
    · rw [List.map_cons, if_pos ha, lookupKey, if_pos rfl]
    · rw [List.map_cons, if_neg ha, lookupKey, if_neg ha]
      rw [keysOf, List.map_cons, List.mem_cons] at h
      rcases h with h1 | h1
      · exact absurd h1.symm ha
      · exact ih h1

theorem lookupKey_map_overwrite_ne {m : AudienceMapping} {k q : String} (v : String)
    (h : q ≠ k) :
    lookupKey (m.map (fun p => if p.1 = k then (k, v) else p)) q = lookupKey m q := by
  induction m with
  | nil => rfl
  | cons p t ih =>
    obtain ⟨a, b⟩ := p
    by_cases ha : a = k
    · rw [List.map_cons, if_pos ha, lookupKey, lookupKey,
        if_neg (fun e : k = q => h e.symm), if_neg (fun e : a = q => h (ha ▸ e).symm)]
      exact ih
    · rw [List.map_cons, if_neg ha, lookupKey, lookupKey]
      by_cases haq : a = q
      · rw [if_pos haq, if_pos haq]
      · rw [if_neg haq, if_neg haq]
        exact ih

theorem lookupKey_objInsert_self (m : AudienceMapping) (k v : String) :
    lookupKey (objInsert m k v) k = some v := by
  unfold objInsert
  by_cases h : k ∈ keysOf m
  · rw [if_pos h]
    exact lookupKey_map_overwrite_self v h
  · rw [if_neg h, lookupKey_append_of_not_mem _ h, lookupKey, if_pos rfl]

theorem lookupKey_objInsert_ne (m : AudienceMapping) (k v q : String) (h : q ≠ k) :
    lookupKey (objInsert m k v) q = lookupKey m q := by
  unfold objInsert
  by_cases hk : k ∈ keysOf m
  · rw [if_pos hk]
    exact lookupKey_map_overwrite_ne v h
  · rw [if_neg hk]
    exact lookupKey_append_single_ne m k v q h

theorem keysOf_objInsert (m : AudienceMapping) (k v : String) :
    keysOf (objInsert m k v) = if k ∈ keysOf m then keysOf m else keysOf m ++ [k] := by
  unfold objInsert
  by_cases h : k ∈ keysOf m
  · rw [if_pos h, if_pos h, keysOf, keysOf, List.map_map]
    have hf : (Prod.fst ∘ fun p : String × String => if p.1 = k then (k, v) else p) = Prod.fst := by
      funext p
      by_cases hp : p.1 = k
      · simp [hp]
      · simp [hp]
    rw [hf]
  · rw [if_neg h, if_neg h, keysOf, keysOf, List.map_append]
    rfl

theorem mem_keysOf_objInsert {m : AudienceMapping} {k v q : String} :
    q ∈ keysOf (objInsert m k v) ↔ q ∈ keysOf m ∨ q = k := by
  rw [keysOf_objInsert]
  by_cases h : k ∈ keysOf m
  · rw [if_pos h]
    constructor
    · exact Or.inl
    · rintro (hq | rfl)
      · exact hq
      · exact h
  · rw [if_neg h]
    simp [List.mem_append]

theorem nodup_keysOf_objInsert {m : AudienceMapping} {k v : String}
    (h : (keysOf m).Nodup) : (keysOf (objInsert m k v)).Nodup := by
  rw [keysOf_objInsert]
  by_cases hk : k ∈ keysOf m
  · rw [if_pos hk]
    exact h
  · rw [if_neg hk]
    rw [List.nodup_append]
    exact ⟨h, List.nodup_singleton k, by simpa [List.disjoint_singleton] using hk⟩

theorem foldl_objInsert_lookup (i j : Int) (k : String) :
    ∀ (rows : List (List String)) (init : AudienceMapping),
      lookupKey (rows.foldl (fun m row => objInsert m (rowGet row i) (rowGet row j)) init) k =
        match rows.reverse.find? (fun row => rowGet row i == k) with
        | some row => some (rowGet row j)
        | none => lookupKey init k := by
  intro rows
  induction rows with
  | nil =>
    intro init
    rfl
  | cons r rs ih =>
    intro init
    rw [List.foldl_cons, ih, List.reverse_cons, List.find?_append]
    cases hf : rs.reverse.find? (fun row => rowGet row i == k) with
    | some row => rfl
    | none =>
      by_cases hk : rowGet r i = k
      · have hfr : List.find? (fun row => rowGet row i == k) [r] = some r := by
          simp [List.find?_cons, hk]
        rw [hfr, hk]
        exact lookupKey_objInsert_self init k (rowGet r j)
      · have hfr : List.find? (fun row => rowGet row i == k) [r] = none := by
          simp [List.find?_cons, hk]
        rw [hfr]
        exact lookupKey_objInsert_ne init (rowGet r i) (rowGet r j) k (fun e => hk e.symm)

theorem foldl_objInsert_mem_keys (i j : Int) (q : String) :
    ∀ (rows : List (List String)) (init : AudienceMapping),
      q ∈ keysOf (rows.foldl (fun m row => objInsert m (rowGet row i) (rowGet row j)) init) ↔
        q ∈ keysOf init ∨ q ∈ rows.map (fun row => rowGet row i) := by
  intro rows
  induction rows with
  | nil =>
    intro init
    simp
  | cons r rs ih =>
    intro init
    rw [List.foldl_cons, ih, mem_keysOf_objInsert]
    simp only [List.map_cons, List.mem_cons]
    rw [or_assoc]

theorem foldl_objInsert_nodup (i j : Int) :
    ∀ (rows : List (List String)) (init : AudienceMapping),
      (keysOf init).Nodup →
      (keysOf (rows.foldl (fun m row => objInsert m (rowGet row i) (rowGet row j)) init)).Nodup := by
  intro rows
  induction rows with
  | nil =>
    intro init h
    exact h
  | cons r rs ih =>
    intro init h
    rw [List.foldl_cons]
    exact ih _ (nodup_keysOf_objInsert h)

/-! ## The pipeline depends on the mapping only through its key set -/

theorem getAudiencesFromEntity_congr {m₁ m₂ : AudienceMapping}
    (h : ∀ k, k ∈ keysOf m₁ ↔ k ∈ keysOf m₂) (auds : List Audience) :
    getAudiencesFromEntity auds m₁ = getAudiencesFromEntity auds m₂ := by
  simp only [getAudiencesFromEntity]
  apply List.filter_congr
  intro a _
  rw [isAudienceInMarketAudience, isAudienceInMarketAudience, decide_eq_decide,
    jsIndexOf_pos_iff, jsIndexOf_pos_iff]
  exact h a.audienceId

theorem operationsForCampaign_congr {m₁ m₂ : AudienceMapping}
    (h : ∀ k, k ∈ keysOf m₁ ↔ k ∈ keysOf m₂) (cp ap : String → Option ℚ) (c : Campaign) :
    operationsForCampaign m₁ cp ap c = operationsForCampaign m₂ cp ap c := by
  simp only [operationsForCampaign, makeOperationsFromEntity, getAudiencesFromEntity_congr h]

/-! ## Claims -/

/-- C1: the claim states that for an entity whose id is absent from the
performance map, no `BidOperation` is produced for any of its audiences.
Evaluating the embedded pipeline on a campaign missing from the performance map,
with one mapped audience above the impression threshold and positive
conversions, the code nevertheless emits an operation — its modifier is the NaN
(`none`) obtained from dividing the `parseFloat(undefined)` baseline — so the
emitted list is not empty, contradicting the claim. -/
theorem claim1_absent_baseline_still_emits :
    makeAllOperations [("111", "Shoppers")] (fun _ => none) (fun _ => none) [] []
        [{ id := "C1", name := "camp",
           stats := { impressions := 100, cost := 0, conversions := 0 },
           audiences := [{ audienceId := "111",
                           stats := { impressions := 100, cost := 10, conversions := 5 } }],
           adGroups := [] }] =
      [{ audience := { audienceId := "111",
                       stats := { impressions := 100, cost := 10, conversions := 5 } },
         modifier := none }] ∧
    ([{ audience := { audienceId := "111",
                      stats := { impressions := 100, cost := 10, conversions := 5 } },
        modifier := none }] : List BidOperation) ≠ [] :=
  ⟨rfl, by simp⟩

/-- C2: the claim states that a campaign is selected by the name-inclusion
filter if and only if its name contains at least one of the listed substrings.
With the two-element list `["brand", "generic"]`, the chained (conjoined)
selector conditions exclude the campaign named `"My Brand Campaign"` even
though its name does contain `"brand"` case-insensitively — contradicting the
claim (and the comment in the source describing an OR semantics). -/
theorem claim2_contains_filter_is_conjunctive :
    filterCampaignsBasedOnName [] ["brand", "generic"]
        [{ id := "C1", name := "My Brand Campaign",
           stats := { impressions := 100, cost := 0, conversions := 0 },
           audiences := [], adGroups := [] }] = [] ∧
    containsIgnoreCase "My Brand Campaign" "brand" = true :=
  ⟨rfl, rfl⟩

/-- C3: every `BidOperation` emitted anywhere in a run has an audience with
strictly positive conversions; hence an audience whose stats have
`conversions == 0` never appears in any operation, whatever its cost, the
entity baseline, the mapping, or the campaign structure. -/
theorem claim3_zero_conversion_audiences_excluded
    (m : AudienceMapping) (cp ap : String → Option ℚ) (dnc con : List String)
    (camps : List Campaign) (op : BidOperation)
    (h : op ∈ makeAllOperations m cp ap dnc con camps) :
    0 < op.audience.stats.conversions := by
  simp only [makeAllOperations] at h
  rcases List.mem_flatMap.mp h with ⟨c, _, hc⟩
  exact conversions_pos_of_mem_operationsForCampaign hc

/-- Witness for C3 at the end-to-end scenario of the spec (baseline 2.5, cost
10, conversions 5). -/
theorem claim3_witness :
    0 < ({ audience := { audienceId := "111",
                         stats := { impressions := 100, cost := 10, conversions := 5 } },
           modifier := some ((5 : ℚ)/2 / ((10 : ℚ) / 5)) } : BidOperation).audience.stats.conversions :=
  claim3_zero_conversion_audiences_excluded [("111", "Shoppers")] (fun _ => some (5/2))
    (fun _ => none) [] []
    [{ id := "C1", name := "camp", stats := { impressions := 100, cost := 0, conversions := 0 },
       audiences := [{ audienceId := "111",
                       stats := { impressions := 100, cost := 10, conversions := 5 } }],
       adGroups := [] }]
    { audience := { audienceId := "111",
                    stats := { impressions := 100, cost := 10, conversions := 5 } },
      modifier := some ((5 : ℚ)/2 / ((10 : ℚ) / 5)) }
    (List.Mem.head _)

/-- C4: for a kept audience (positive conversions) and a present baseline, the
emitted modifier is exactly `entityCpa / (cost / conversions)` — a pure
function of the triple `(entityCpa, audienceCost, audienceConversions)`. -/
theorem claim4_modifier_formula (entityCpa : ℚ) (audiences : List Audience) (op : BidOperation)
    (h : op ∈ makeOperations (some entityCpa) audiences) :
    op.modifier = some (entityCpa / (op.audience.stats.cost / op.audience.stats.conversions)) := by
  rcases mem_makeOperations.mp h with ⟨a, _, _, rfl⟩
  rfl

/-- Witness for C4: baseline 2.5, cost 10, conversions 5 give modifier
`2.5 / (10 / 5)`. -/
theorem claim4_witness :
    ({ audience := { audienceId := "111",
                     stats := { impressions := 100, cost := 10, conversions := 5 } },
       modifier := some ((5 : ℚ)/2 / ((10 : ℚ) / 5)) } : BidOperation).modifier =
      some ((5 : ℚ)/2 / ((10 : ℚ) / 5)) :=
  claim4_modifier_formula ((5 : ℚ)/2)
    [{ audienceId := "111", stats := { impressions := 100, cost := 10, conversions := 5 } }]
    { audience := { audienceId := "111",
                    stats := { impressions := 100, cost := 10, conversions := 5 } },
      modifier := some ((5 : ℚ)/2 / ((10 : ℚ) / 5)) }
    (List.Mem.head _)

/-- C5 counterexample: the claim states the pipeline operates at campaign
granularity if and only if the campaign has at least one campaign-level
IN-MARKET audience attached.  A campaign whose only attached audience has id
`"555"`, not a key of the mapping `[("111", "Shoppers")]`, is still processed
at campaign granularity (and its above-threshold ad group is never iterated),
because the branch check counts all attached audiences without consulting the
mapping — so the claim as stated is false. -/
theorem claim5_counterexample :
    processedEntities [] []
        [{ id := "C1", name := "camp",
           stats := { impressions := 100, cost := 0, conversions := 0 },
           audiences := [{ audienceId := "555",
                           stats := { impressions := 100, cost := 10, conversions := 5 } }],
           adGroups := [{ id := "G1",
                          stats := { impressions := 100, cost := 0, conversions := 0 },
                          audiences := [] }] }] =
      [ProcessedEntity.campaignLevel
        { id := "C1", name := "camp",
          stats := { impressions := 100, cost := 0, conversions := 0 },
          audiences := [{ audienceId := "555",
                          stats := { impressions := 100, cost := 10, conversions := 5 } }],
          adGroups := [{ id := "G1",
                         stats := { impressions := 100, cost := 0, conversions := 0 },
                         audiences := [] }] }] ∧
    (¬ ∃ a, a ∈ [{ audienceId := "555",
                   stats := { impressions := 100, cost := 10, conversions := 5 } }] ∧
        (Audience.audienceId a) ∈ keysOf [("111", "Shoppers")]) :=
  ⟨rfl, by decide⟩

/-- C5 (amended): a surviving campaign is processed at campaign granularity if
and only if it has at least one attached campaign-level audience OF ANY KIND
(the branch check ignores the mapping and the date/impression filter);
otherwise exactly its date+impression-filtered ad groups are processed. -/
theorem claim5_granularity_by_any_attached_audience
    (dnc con : List String) (camps : List Campaign) (c : Campaign) (g : AdGroup) :
    (ProcessedEntity.campaignLevel c ∈ processedEntities dnc con camps ↔
      c ∈ selectedCampaigns dnc con camps ∧ c.audiences ≠ []) ∧
    (ProcessedEntity.adGroupLevel c g ∈ processedEntities dnc con camps ↔
      c ∈ selectedCampaigns dnc con camps ∧ c.audiences = [] ∧
        g ∈ filterAdGroupsBasedOnDateAndImpressions c.adGroups) :=
  ⟨campaignLevel_mem_processedEntities, adGroupLevel_mem_processedEntities⟩

/-- C6: a campaign taken in the campaign-granularity branch (it has attached
campaign-level audiences) never also has any of its ad groups iterated in the
same run — the two branches are mutually exclusive per campaign. -/
theorem claim6_campaign_branch_never_iterates_ad_groups
    (dnc con : List String) (camps : List Campaign) (c : Campaign) (g : AdGroup)
    (h : campaignHasAnyCampaignLevelAudiences c = true) :
    ProcessedEntity.adGroupLevel c g ∉ processedEntities dnc con camps := by
  intro hmem
  rcases adGroupLevel_mem_processedEntities.mp hmem with ⟨_, hnil, _⟩
  rw [campaignHasAudiences_eq_true_iff] at h
  exact h hnil

/-- Witness for C6: a concrete campaign with one attached audience is never
followed by an ad-group iteration of its own ad group. -/
theorem claim6_witness :
    ProcessedEntity.adGroupLevel
        { id := "C1", name := "camp", stats := { impressions := 100, cost := 0, conversions := 0 },
          audiences := [{ audienceId := "111",
                          stats := { impressions := 100, cost := 10, conversions := 5 } }],
          adGroups := [{ id := "G1", stats := { impressions := 100, cost := 0, conversions := 0 },
                         audiences := [] }] }
        { id := "G1", stats := { impressions := 100, cost := 0, conversions := 0 },
          audiences := [] } ∉
      processedEntities [] []
        [{ id := "C1", name := "camp", stats := { impressions := 100, cost := 0, conversions := 0 },
           audiences := [{ audienceId := "111",
                           stats := { impressions := 100, cost := 10, conversions := 5 } }],
           adGroups := [{ id := "G1", stats := { impressions := 100, cost := 0, conversions := 0 },
                          audiences := [] }] }] :=
  claim6_campaign_branch_never_iterates_ad_groups [] []
    [{ id := "C1", name := "camp", stats := { impressions := 100, cost := 0, conversions := 0 },
       audiences := [{ audienceId := "111",
                       stats := { impressions := 100, cost := 10, conversions := 5 } }],
       adGroups := [{ id := "G1", stats := { impressions := 100, cost := 0, conversions := 0 },
                      audiences := [] }] }]
    { id := "C1", name := "camp", stats := { impressions := 100, cost := 0, conversions := 0 },
      audiences := [{ audienceId := "111",
                      stats := { impressions := 100, cost := 10, conversions := 5 } }],
      adGroups := [{ id := "G1", stats := { impressions := 100, cost := 0, conversions := 0 },
                     audiences := [] }] }
    { id := "G1", stats := { impressions := 100, cost := 0, conversions := 0 }, audiences := [] }
    rfl

/-- C7: for any source with a header row, the loader fails with the
configuration error exactly when the header row lacks `"Criterion ID"` or
`"Category"`; with both present it returns a mapping (it does not raise), and
in the failing case nothing but the error is returned. -/
theorem claim7_header_validation (headers : List String) (rows : List (List String)) :
    getInMarketAudienceMapping (headers :: rows) =
        Except.error "The audience CSV does not have the expected headers" ↔
      ("Criterion ID" ∉ headers ∨ "Category" ∉ headers) := by
  simp only [getInMarketAudienceMapping, List.headD_cons]
  by_cases h : jsIndexOf headers "Criterion ID" = -1 ∨ jsIndexOf headers "Category" = -1
  · rw [if_pos h]
    constructor
    · intro _
      rcases h with h1 | h1
      · exact Or.inl ((jsIndexOf_eq_neg_one_iff _ _).mp h1)
      · exact Or.inr ((jsIndexOf_eq_neg_one_iff _ _).mp h1)
    · intro _
      rfl
  · rw [if_neg h]
    constructor
    · intro he
      exact Except.noConfusion he
    · intro hm
      exfalso
      apply h
      rcases hm with h1 | h1
      · exact Or.inl ((jsIndexOf_eq_neg_one_iff _ _).mpr h1)
      · exact Or.inr ((jsIndexOf_eq_neg_one_iff _ _).mpr h1)

/-- C8: a successfully loaded mapping has no duplicate keys, its keys are
exactly the `Criterion ID` cells of the data rows, and each key is bound to the
`Category` cell of the LAST data row carrying that id (later rows overwrite
earlier ones). -/
theorem claim8_mapping_last_wins (headers : List String) (rows : List (List String))
    (m : AudienceMapping)
    (h : getInMarketAudienceMapping (headers :: rows) = Except.ok m) :
    (keysOf m).Nodup ∧
    (∀ k, k ∈ keysOf m ↔ k ∈ rows.map (fun row => rowGet row (jsIndexOf headers "Criterion ID"))) ∧
    (∀ k, lookupKey m k =
      (rows.reverse.find? (fun row => rowGet row (jsIndexOf headers "Criterion ID") == k)).map
        (fun row => rowGet row (jsIndexOf headers "Category"))) := by
  simp only [getInMarketAudienceMapping, List.headD_cons, List.drop_succ_cons,
    List.drop_zero] at h
  by_cases hc : jsIndexOf headers "Criterion ID" = -1 ∨ jsIndexOf headers "Category" = -1
  · rw [if_pos hc] at h
    exact absurd h (by simp)
  · rw [if_neg hc, Except.ok.injEq] at h
    subst h
    refine ⟨?_, ?_, ?_⟩
    · exact foldl_objInsert_nodup _ _ rows [] (by simp [keysOf])
    · intro k
      rw [foldl_objInsert_mem_keys]
      simp [keysOf]
    · intro k
      rw [foldl_objInsert_lookup]
      cases hf : rows.reverse.find?
          (fun row => rowGet row (jsIndexOf headers "Criterion ID") == k) with
      | some row => rfl
      | none => rfl

/-- Witness for C8 on a source with a duplicated id: the resulting keys are
duplicate-free. -/
theorem claim8_witness :
    (keysOf [("1", "C"), ("2", "B")]).Nodup :=
  (claim8_mapping_last_wins ["Criterion ID", "Category"]
    [["1", "A"], ["2", "B"], ["1", "C"]] [("1", "C"), ("2", "B")] rfl).1

/-- C9: only attached audiences whose id is a key of the mapping are kept;
an audience with an unmapped id is dropped from the kept list (silently — the
functions are total and raise nothing), and consequently no operation ever
references an unmapped audience. -/
theorem claim9_unmapped_audiences_dropped (m : AudienceMapping) (auds : List Audience)
    (cpa : Option ℚ) :
    (∀ a, a ∈ getAudiencesFromEntity auds m → a.audienceId ∈ keysOf m) ∧
    (∀ a, a ∈ auds → a.audienceId ∉ keysOf m → a ∉ getAudiencesFromEntity auds m) ∧
    (∀ op, op ∈ makeOperationsFromEntity auds cpa m → op.audience.audienceId ∈ keysOf m) := by
  refine ⟨?_, ?_, ?_⟩
  · intro a ha
    exact (mem_getAudiencesFromEntity.mp ha).2.2
  · intro a _ hn ha
    exact hn (mem_getAudiencesFromEntity.mp ha).2.2
  · intro op hop
    rcases mem_makeOperationsFromEntity.mp hop with ⟨a, ha, _, rfl⟩
    exact (mem_getAudiencesFromEntity.mp ha).2.2

/-- Witness for C9: the unmapped audience id 333 from the end-to-end scenario
of the spec is dropped. -/
theorem claim9_witness :
    ({ audienceId := "333", stats := { impressions := 100, cost := 10, conversions := 5 } } : Audience) ∉
      getAudiencesFromEntity
        [{ audienceId := "111", stats := { impressions := 100, cost := 10, conversions := 5 } },
         { audienceId := "333", stats := { impressions := 100, cost := 10, conversions := 5 } }]
        [("111", "Shoppers")] :=
  (claim9_unmapped_audiences_dropped [("111", "Shoppers")]
      [{ audienceId := "111", stats := { impressions := 100, cost := 10, conversions := 5 } },
       { audienceId := "333", stats := { impressions := 100, cost := 10, conversions := 5 } }]
      none).2.1
    { audienceId := "333", stats := { impressions := 100, cost := 10, conversions := 5 } }
    (List.Mem.tail _ (List.Mem.head _)) (by decide)

/-- C10: two mappings with the same key set (whatever their category labels)
yield identical operation lists on identical performance data and campaigns:
the pipeline reads the mapping only through `Object.keys`. -/
theorem claim10_operations_depend_only_on_mapping_keys
    (m₁ m₂ : AudienceMapping) (cp ap : String → Option ℚ) (dnc con : List String)
    (camps : List Campaign)
    (h : ∀ k, k ∈ keysOf m₁ ↔ k ∈ keysOf m₂) :
    makeAllOperations m₁ cp ap dnc con camps = makeAllOperations m₂ cp ap dnc con camps := by
  simp only [makeAllOperations]
  rw [show operationsForCampaign m₁ cp ap = operationsForCampaign m₂ cp ap from
    funext fun c => operationsForCampaign_congr h cp ap c]

/-- Witness for C10: changing a category label (`"Shoppers"` to
`"Electronics"`) while keeping the key set leaves the run's operations
unchanged. -/
theorem claim10_witness :
    makeAllOperations [("111", "Shoppers")] (fun _ => some (5/2)) (fun _ => none) [] []
        [{ id := "C1", name := "camp", stats := { impressions := 100, cost := 0, conversions := 0 },
           audiences := [{ audienceId := "111",
                           stats := { impressions := 100, cost := 10, conversions := 5 } }],
           adGroups := [] }] =
      makeAllOperations [("111", "Electronics")] (fun _ => some (5/2)) (fun _ => none) [] []
        [{ id := "C1", name := "camp", stats := { impressions := 100, cost := 0, conversions := 0 },
           audiences := [{ audienceId := "111",
                           stats := { impressions := 100, cost := 10, conversions := 5 } }],
           adGroups := [] }] :=
  claim10_operations_depend_only_on_mapping_keys [("111", "Shoppers")] [("111", "Electronics")]
    (fun _ => some (5/2)) (fun _ => none) [] []
    [{ id := "C1", name := "camp", stats := { impressions := 100, cost := 0, conversions := 0 },
       audiences := [{ audienceId := "111",
                       stats := { impressions := 100, cost := 10, conversions := 5 } }],
       adGroups := [] }]
    (fun _ => Iff.rfl)
